import Mathlib

/-!
Verification development for the `network_calculations` repository.

Part 1 embeds `reconstruction/util/ConfigParser.py`: JSON-like values, the
`ConfigItem`/`Config` schema hierarchy, duplicate-key-safe decoding and the
top-level parse entry points.

Part 2 embeds `random_networks/synthesize_network_stats.py`: the per-network
top-node selection by a stable two-key descending sort, with missing BiBC
values as a bottom element rendered as the token "N/A".
-/

namespace ConfigParser

/-- The closed set of Python runtime types that occur as accepted types in the
configuration schemas (`str`, `int`, `float`, `bool`, `list`, `dict`,
`NoneType`). -/
inductive JType where
  | str
  | int
  | float
  | bool
  | list
  | dict
  | noneType
deriving DecidableEq

/-- JSON-compatible Python values as produced by `json.load`: `None`, booleans,
integers, floats (modelled as rationals), strings, lists and dicts (ordered
association lists). Parsed-configuration mappings are also represented with
`jobj`. -/
inductive JValue where
  | jnull
  | jbool (b : Bool)
  | jint (n : Int)
  | jfloat (q : ℚ)
  | jstr (s : String)
  | jarr (elems : List JValue)
  | jobj (fields : List (String × JValue))

/-- The Python runtime type (`type(v)`) of a JSON value. -/
def typeOf : JValue → JType
  | .jnull => .noneType
  | .jbool _ => .bool
  | .jint _ => .int
  | .jfloat _ => .float
  | .jstr _ => .str
  | .jarr _ => .list
  | .jobj _ => .dict

/-- Python `isinstance(v, t)` on the closed type set. In Python, `bool` is a
subclass of `int`, so `isinstance(True, int)` is true; no other subclass
relations hold among these types. -/
def isinstance (v : JValue) (t : JType) : Bool :=
  match t with
  | .int => typeOf v == JType.int || typeOf v == JType.bool
  | t => typeOf v == t

/-- A Python dict with string keys, as an ordered association list with
distinct keys maintained by `dictInsert`. -/
abbrev Dict := List (String × JValue)

/-- Python dict lookup `d[k]` / `d.get(k)`: first (and, with distinct keys,
only) binding of `k`. -/
def dictFind? : Dict → String → Option JValue
  | [], _ => none
  | (k', v) :: rest, k => if k' = k then some v else dictFind? rest k

/-- Python `k in d`. -/
def containsKey (d : Dict) (k : String) : Bool :=
  (dictFind? d k).isSome

/-- Python dict assignment `d[k] = v`: updates the value in place if `k` is
already bound (keeping its position, as Python dicts do), otherwise appends
the new binding at the end (insertion order). -/
def dictInsert : Dict → String → JValue → Dict
  | [], k, v => [(k, v)]
  | (k', v') :: rest, k, v =>
      if k' = k then (k, v) :: rest else (k', v') :: dictInsert rest k v

/-- The message of the `ValidationFailedError` raised by
`errorOnDuplicateKeys`, exactly as formatted in the source. -/
def duplicateKeyMessage (k : String) : String :=
  "The key " ++ k ++ " was used multiple times in the same dictionary in the config file. Each key should be unique."

/-- Whether `pat` is a prefix of `l` (character lists). -/
def charsPrefixOf : List Char → List Char → Bool
  | [], _ => true
  | _ :: _, [] => false
  | a :: pat, b :: l => a = b && charsPrefixOf pat l

/-- Whether `pat` occurs as a contiguous sublist of `l`. -/
def charsSublistOf (pat : List Char) : List Char → Bool
  | [] => charsPrefixOf pat []
  | l@(_ :: rest) => charsPrefixOf pat l || charsSublistOf pat rest

/-- Whether the string `pat` occurs inside the string `s` — used to check
whether an error message mentions, for example, a file path. -/
def strContains (s pat : String) : Bool :=
  charsSublistOf pat.toList s.toList

/-- The exceptions raised by the library: `ExpectedValueError` (carrying the
key), `InvalidTypeError` (carrying the key, the expected type(s), the received
type and whether a list of types was expected) and `ValidationFailedError`
(carrying its message). -/
inductive ConfigError where
  | expectedValue (key : String)
  | invalidType (key : String) (expectedTypes : List JType) (receivedType : JType)
      (typeList : Bool)
  | validationFailed (message : String)
deriving DecidableEq

/-- The `default` argument of a plain `ConfigItem`: either the `NoDefault`
sentinel or a concrete value. -/
inductive ItemDefault where
  | noDefault
  | value (v : JValue)

/-- The `default` argument of a `TypeOrSubconfigConfigItem`: additionally the
`UseSubDefaults` sentinel, meaning the nested Config produces the default. -/
inductive SubDefault where
  | noDefault
  | useSubDefaults
  | value (v : JValue)

mutual

/-- The `ConfigItem` hierarchy: `MultiTypeConfigItem` (a key, a list of
accepted types, a default) and `TypeOrSubconfigConfigItem` (a key, a scalar
type, a nested `Config`, a default). `TypedConfigItem` is the one-type special
case of `MultiTypeConfigItem` (see `TypedConfigItem` below). -/
inductive ConfigItem where
  | multiType (key : String) (possibleTypes : List JType) (default : ItemDefault)
  | typeOrSubconfig (key : String) (type_ : JType) (subconfig : Config)
      (default : SubDefault)

/-- A `Config`: an ordered list of `ConfigItem`s plus an optional validator
callback (which may transform the parsed mapping or raise). -/
inductive Config where
  | mk (configItems : List ConfigItem)
      (validator : Option (Dict → Except ConfigError Dict))

end

/-- The `key` attribute of a `ConfigItem`. -/
def ConfigItem.key : ConfigItem → String
  | .multiType k _ _ => k
  | .typeOrSubconfig k _ _ _ => k

/-- Whether the item was declared with the `NoDefault` sentinel (so that a
missing key must raise). -/
def ConfigItem.hasNoDefault : ConfigItem → Bool
  | .multiType _ _ .noDefault => true
  | .typeOrSubconfig _ _ _ .noDefault => true
  | _ => false

/-- The `configItems` attribute of a `Config`. -/
def Config.configItems : Config → List ConfigItem
  | .mk items _ => items

/-- The `validator` attribute of a `Config` (`none` models Python `None`). -/
def Config.validator : Config → Option (Dict → Except ConfigError Dict)
  | .mk _ v => v

mutual

/-- `ConfigItem.getDefault` (with the `TypeOrSubconfigConfigItem` override):
raises `ExpectedValueError(key)` on the `NoDefault` sentinel; on
`UseSubDefaults` delegates to the nested Config's `getDefault`; otherwise
returns the declared default. -/
def ConfigItem.getDefault : ConfigItem → Except ConfigError JValue
  | .multiType key _ default =>
      match default with
      | .noDefault => .error (.expectedValue key)
      | .value v => .ok v
  | .typeOrSubconfig key _ subconfig default =>
      match default, subconfig with
      | .useSubDefaults, .mk subItems _ => (getDefaultItems [] subItems).map .jobj
      | .noDefault, _ => .error (.expectedValue key)
      | .value v, _ => .ok v

/-- The loop body of `Config.getDefault`: `defaults[item.key] =
item.getDefault()` over the items in order, starting from `defaults`. -/
def getDefaultItems (defaults : Dict) : List ConfigItem → Except ConfigError Dict
  | [] => .ok defaults
  | item :: rest =>
      match ConfigItem.getDefault item with
      | .error e => .error e
      | .ok v => getDefaultItems (dictInsert defaults item.key v) rest

/-- The type-specific extraction step `_parse` of each item variant.
`MultiTypeConfigItem._parse`: return the value if `isinstance` matches any
accepted type, else raise `InvalidTypeError(key, possibleTypes, type(v),
typeList=True)`. `TypeOrSubconfigConfigItem._parse`: return the value if it
matches the scalar type, else recursively parse a dict value against the
nested Config, else raise `InvalidTypeError(key, type_, type(v))`. -/
def ConfigItem.parseValue : ConfigItem → JValue → Except ConfigError JValue
  | .multiType key possibleTypes _, jsonValue =>
      if possibleTypes.any (fun t => isinstance jsonValue t) then .ok jsonValue
      else .error (.invalidType key possibleTypes (typeOf jsonValue) true)
  | .typeOrSubconfig key type_ subconfig _, jsonValue =>
      if isinstance jsonValue type_ then .ok jsonValue
      else
        match jsonValue, subconfig with
        | .jobj fields, .mk subItems _ => (parseItems fields [] subItems).map .jobj
        | jsonValue, _ => .error (.invalidType key [type_] (typeOf jsonValue) false)

/-- The loop body of `Config.parse`: `values[item.key] =
item.parse(jsonConfig)` over the items in order, starting from `values`. -/
def parseItems (jsonConfig : Dict) (values : Dict) :
    List ConfigItem → Except ConfigError Dict
  | [] => .ok values
  | item :: rest =>
      match
        (match dictFind? jsonConfig item.key with
         | some raw => ConfigItem.parseValue item raw
         | none => ConfigItem.getDefault item) with
      | .error e => .error e
      | .ok v => parseItems jsonConfig (dictInsert values item.key v) rest

end

/-- `ConfigItem.parse(jsonConfig)`: if the key is present in the input (even
bound to `None`), delegate to the type-specific `_parse`; otherwise return
`getDefault()`. -/
def ConfigItem.parse (item : ConfigItem) (jsonConfig : Dict) :
    Except ConfigError JValue :=
  match dictFind? jsonConfig item.key with
  | some raw => ConfigItem.parseValue item raw
  | none => ConfigItem.getDefault item

/-- `Config.getDefault`: the mapping of every item's key to its default. -/
def Config.getDefault (c : Config) : Except ConfigError Dict :=
  getDefaultItems [] c.configItems

/-- `Config.parse(jsonConfig)`: the mapping of every item's key to
`item.parse(jsonConfig)`. -/
def Config.parse (c : Config) (jsonConfig : Dict) : Except ConfigError Dict :=
  parseItems jsonConfig [] c.configItems

/-- `Config.validate(config)`: apply the validator if one was supplied,
otherwise return the mapping unchanged. -/
def Config.validate (c : Config) (config : Dict) : Except ConfigError Dict :=
  match c.validator with
  | some f => f config
  | none => .ok config

/-- `TypedConfigItem`: a `MultiTypeConfigItem` with a one-element type list. -/
def TypedConfigItem (key : String) (expectedType : JType)
    (default : ItemDefault) : ConfigItem :=
  .multiType key [expectedType] default

/-- `parseConfig(configSpec, jsonConfig)`: parse, then validate, propagating
any raised error. -/
def parseConfig (configSpec : Config) (jsonConfig : Dict) :
    Except ConfigError Dict :=
  match configSpec.parse jsonConfig with
  | .error e => .error e
  | .ok config => configSpec.validate config

/-- The loop of `errorOnDuplicateKeys`, carrying the dict built so far:
raise `ValidationFailedError` as soon as a key about to be inserted is
already present. -/
def errorOnDuplicateKeysGo (d : Dict) :
    List (String × JValue) → Except ConfigError Dict
  | [] => .ok d
  | (k, v) :: rest =>
      if containsKey d k then .error (.validationFailed (duplicateKeyMessage k))
      else errorOnDuplicateKeysGo (dictInsert d k v) rest

/-- `errorOnDuplicateKeys(orderedPairs)`: build a dict from the ordered pairs
of one JSON object, failing on a repeated key. -/
def errorOnDuplicateKeys (orderedPairs : List (String × JValue)) :
    Except ConfigError Dict :=
  errorOnDuplicateKeysGo [] orderedPairs

/-- The raw JSON document text, already lexed into a tree in which objects
keep their ordered (possibly duplicated) key-value pairs: the input on which
`json.load` invokes `object_pairs_hook` at every object level. -/
inductive RawJson where
  | rnull
  | rbool (b : Bool)
  | rint (n : Int)
  | rfloat (q : ℚ)
  | rstr (s : String)
  | rarr (elems : List RawJson)
  | robj (fields : List (String × RawJson))

mutual

/-- `json.load` with `object_pairs_hook=errorOnDuplicateKeys`: decode depth
first, applying the duplicate-key check to every object's decoded pairs. -/
def decodeRaw : RawJson → Except ConfigError JValue
  | .rnull => .ok .jnull
  | .rbool b => .ok (.jbool b)
  | .rint n => .ok (.jint n)
  | .rfloat q => .ok (.jfloat q)
  | .rstr s => .ok (.jstr s)
  | .rarr elems => (decodeElems elems).map .jarr
  | .robj fields =>
      match decodeFields fields with
      | .error e => .error e
      | .ok pairs => (errorOnDuplicateKeys pairs).map .jobj

/-- Decode the elements of a JSON array in order. -/
def decodeElems : List RawJson → Except ConfigError (List JValue)
  | [] => .ok []
  | x :: rest =>
      match decodeRaw x with
      | .error e => .error e
      | .ok v => (decodeElems rest).map (v :: ·)

/-- Decode the ordered pairs of a JSON object in order. -/
def decodeFields :
    List (String × RawJson) → Except ConfigError (List (String × JValue))
  | [] => .ok []
  | (k, x) :: rest =>
      match decodeRaw x with
      | .error e => .error e
      | .ok v => (decodeFields rest).map ((k, v) :: ·)

end

/-- Decoding of a config file whose JSON document is an object with ordered
pairs `rootPairs` (the shape every config file has): what `json.load` returns
inside `parseConfigFile`, up to the outer `jobj` wrapper. -/
def decodeRootPairs (rootPairs : List (String × RawJson)) :
    Except ConfigError Dict :=
  match decodeFields rootPairs with
  | .error e => .error e
  | .ok pairs => errorOnDuplicateKeys pairs

/-- `parseConfigFile(configSpec, configFilePath)`: the file at
`configFilePath` holds a JSON object with ordered pairs `rootPairs`; decode
it with the duplicate-key-safe decoder, then run `parseConfig`. -/
def parseConfigFile (configSpec : Config) (configFilePath : String)
    (rootPairs : List (String × RawJson)) : Except ConfigError Dict :=
  match decodeRootPairs rootPairs with
  | .error e => .error e
  | .ok jsonConfig => parseConfig configSpec jsonConfig

/-- `parseConfigFile` with the fate of the file handle made explicit: the
Boolean records whether the `configFile.close()` statement was reached. In
the source, `close()` is the statement after `json.load`, with no
`try`/`finally` and no `with` block, so an exception raised by decoding
propagates before `close()` runs; `parseConfig` runs after `close()`. -/
def parseConfigFileTracked (configSpec : Config) (configFilePath : String)
    (rootPairs : List (String × RawJson)) : Except ConfigError Dict × Bool :=
  match decodeRootPairs rootPairs with
  | .error e => (.error e, false)
  | .ok jsonConfig => (parseConfig configSpec jsonConfig, true)

/-- Whether a list of keys contains a repeated key. -/
def hasDupKey : List String → Bool
  | [] => false
  | k :: rest => rest.contains k || hasDupKey rest

mutual

/-- Whether a raw JSON document contains, at any nesting level, an object
with a repeated key. -/
def RawJson.hasDup : RawJson → Bool
  | .robj fields => hasDupKey (fields.map Prod.fst) || hasDupFields fields
  | .rarr elems => hasDupElems elems
  | _ => false

/-- `hasDup` over the elements of an array. -/
def hasDupElems : List RawJson → Bool
  | [] => false
  | x :: rest => x.hasDup || hasDupElems rest

/-- `hasDup` over the values of an object's pairs. -/
def hasDupFields : List (String × RawJson) → Bool
  | [] => false
  | (_, x) :: rest => x.hasDup || hasDupFields rest

end

end ConfigParser

namespace NetStats

/-- The raw per-node statistics held in the pickled stats file: a degree and a
BiBC value that may be `None` (modelled as `Option`; the float is modelled as
a rational). -/
structure NodeStats where
  degree : Int
  bibc : Option ℚ
deriving DecidableEq

/-- A BiBC entry after the script's replacement step: either the `NoBibc`
marker substituted for `None`, or a number. -/
inductive StatValue where
  | noBibc
  | num (q : ℚ)
deriving DecidableEq

/-- Python `<` on the values being sorted. `NoBibc.__le__` always returns
`True` and `NoBibc.__eq__` holds exactly of `NoBibc`, so with
`functools.total_ordering`, `NoBibc < x` holds iff `x` is not `NoBibc`; a
number compared against `NoBibc` falls back to the reflected comparison,
which makes `x < NoBibc` false. Hence `NoBibc` is a strict bottom element. -/
def StatValue.lt : StatValue → StatValue → Bool
  | .noBibc, .noBibc => false
  | .noBibc, .num _ => true
  | .num _, .noBibc => false
  | .num a, .num b => decide (a < b)

/-- Per-node statistics after `None` BiBC values were replaced by `NoBibc`. -/
structure NodeStatsR where
  degree : Int
  bibc : StatValue
deriving DecidableEq

/-- The replacement loop: `networkStats[node]["bibc"] = NoBibc()` whenever the
stored BiBC is `None`. -/
def replaceNone (stats : NodeStats) : NodeStatsR :=
  { degree := stats.degree
    bibc := match stats.bibc with
            | none => .noBibc
            | some q => .num q }

/-- The two statistics a sort key can select (`"degree"` or `"bibc"`). -/
inductive StatName where
  | degree
  | bibc

/-- The sort key `lambda nodeStats: nodeStats[1][stat]`, as the value that is
compared (a degree is an `int`, compared numerically). -/
def statKey (ns : NodeStatsR) : StatName → StatValue
  | .degree => .num (ns.degree : ℚ)
  | .bibc => ns.bibc

/-- Insert an element into a sorted list, in front of the first element it
`le`-precedes (so, for elements comparing equal, in front of later-inserted
ones — the insertion used by a stable insertion sort). -/
def orderedInsert (le : α → α → Bool) (a : α) : List α → List α
  | [] => [a]
  | b :: l => if le a b then a :: b :: l else b :: orderedInsert le a l

/-- A stable sort (model of Python's stable `sorted`): elements comparing
equal under `le` keep their original relative order. -/
def insertionSort (le : α → α → Bool) : List α → List α
  | [] => []
  | a :: l => orderedInsert le a (insertionSort le l)

/-- `sorted(nodes, key=lambda ns: ns[1][stat], reverse=True)`: a stable sort
placing nodes with larger `stat` values first; ties keep input order. -/
def sortNodesBy (stat : StatName) (l : List (String × NodeStatsR)) :
    List (String × NodeStatsR) :=
  insertionSort (fun a b => !(StatValue.lt (statKey a.2 stat) (statKey b.2 stat))) l

/-- The per-network selection of `sortedStats[0]`: replace `None` BiBC values,
sort by the secondary statistic then (stably) by the primary one, both
descending, and take the first node. With `--flip-priority` the primary
statistic is the degree, otherwise the BiBC. `none` models the `IndexError`
on an empty network. -/
def selectTop (flipPriority : Bool) (networkStats : List (String × NodeStats)) :
    Option (String × NodeStatsR) :=
  let replaced := networkStats.map (fun p => (p.1, replaceNone p.2))
  let stats := if flipPriority then (StatName.degree, StatName.bibc)
               else (StatName.bibc, StatName.degree)
  (sortNodesBy stats.1 (sortNodesBy stats.2 replaced)).head?

/-- A cell of the output CSV, before textual rendering by the `csv` module. -/
inductive CsvCell where
  | natCell (n : Nat)
  | intCell (n : Int)
  | strCell (s : String)
  | ratCell (q : ℚ)
deriving DecidableEq

/-- The BiBC column of an output row: the literal token `"N/A"` when the top
node's BiBC was missing, otherwise the numeric value. -/
def renderBibc : StatValue → CsvCell
  | .noBibc => .strCell "N/A"
  | .num q => .ratCell q

/-- One data row of the output CSV: network index, node name, degree, BiBC. -/
def topRow (index : Nat) (top : String × NodeStatsR) : List CsvCell :=
  [.natCell index, .strCell top.1, .intCell top.2.degree, renderBibc top.2.bibc]

/-- The data rows written after the header row, one per input network in
order, indexed by `enumerate`. `none` models the `IndexError` raised when
some network has no nodes. -/
def synthesizedRows (flipPriority : Bool)
    (allStats : List (List (String × NodeStats))) :
    Option (List (List CsvCell)) :=
  match allStats.mapM (selectTop flipPriority) with
  | none => none
  | some tops => some (tops.enum.map (fun p => topRow p.1 p.2))

end NetStats

namespace ConfigParser

theorem dictFind?_insert (d : Dict) (k : String) (v : JValue) (k' : String) :
    dictFind? (dictInsert d k v) k' = if k = k' then some v else dictFind? d k' := by
  induction d with
  | nil => simp [dictInsert, dictFind?]
  | cons p rest ih =>
      obtain ⟨k0, v0⟩ := p
      by_cases h : k0 = k
      · subst h
        by_cases h' : k0 = k' <;> simp [dictInsert, dictFind?, h']
      · by_cases h' : k0 = k'
        · subst h'
          have h2 : ¬k = k0 := fun hkk => h hkk.symm
          simp [dictInsert, dictFind?, h, h2]
        · simp [dictInsert, dictFind?, h, h', ih]

theorem containsKey_insert (d : Dict) (k : String) (v : JValue) (k' : String) :
    containsKey (dictInsert d k v) k' = true ↔ k = k' ∨ containsKey d k' = true := by
  by_cases h : k = k' <;> simp [containsKey, dictFind?_insert, h]

theorem parseItems_nil (jsonConfig values : Dict) :
    parseItems jsonConfig values [] = .ok values := rfl

theorem parseItems_cons (jsonConfig values : Dict) (item : ConfigItem)
    (rest : List ConfigItem) :
    parseItems jsonConfig values (item :: rest) =
      match ConfigItem.parse item jsonConfig with
      | .error e => .error e
      | .ok v => parseItems jsonConfig (dictInsert values item.key v) rest := rfl

theorem getDefaultItems_nil (defaults : Dict) :
    getDefaultItems defaults [] = .ok defaults := rfl

theorem getDefaultItems_cons (defaults : Dict) (item : ConfigItem)
    (rest : List ConfigItem) :
    getDefaultItems defaults (item :: rest) =
      match ConfigItem.getDefault item with
      | .error e => .error e
      | .ok v => getDefaultItems (dictInsert defaults item.key v) rest := rfl

theorem parseItems_find?_frozen (jsonConfig : Dict) :
    ∀ (items : List ConfigItem) (acc d : Dict),
      parseItems jsonConfig acc items = .ok d →
      ∀ k, k ∉ items.map ConfigItem.key → dictFind? d k = dictFind? acc k := by
  intro items
  induction items with
  | nil =>
      intro acc d h k _
      rw [parseItems_nil] at h
      cases h
      rfl
  | cons it rest ih =>
      intro acc d h k hk
      rw [parseItems_cons] at h
      cases hp : ConfigItem.parse it jsonConfig with
      | error e => rw [hp] at h; cases h
      | ok v =>
          rw [hp] at h
          simp only [List.map_cons, List.mem_cons, not_or] at hk
          obtain ⟨hk1, hk2⟩ := hk
          rw [ih (dictInsert acc it.key v) d h k hk2, dictFind?_insert,
            if_neg (fun he => hk1 he.symm)]

theorem getDefaultItems_find?_frozen :
    ∀ (items : List ConfigItem) (acc d : Dict),
      getDefaultItems acc items = .ok d →
      ∀ k, k ∉ items.map ConfigItem.key → dictFind? d k = dictFind? acc k := by
  intro items
  induction items with
  | nil =>
      intro acc d h k _
      rw [getDefaultItems_nil] at h
      cases h
      rfl
  | cons it rest ih =>
      intro acc d h k hk
      rw [getDefaultItems_cons] at h
      cases hp : ConfigItem.getDefault it with
      | error e => rw [hp] at h; cases h
      | ok v =>
          rw [hp] at h
          simp only [List.map_cons, List.mem_cons, not_or] at hk
          obtain ⟨hk1, hk2⟩ := hk
          rw [ih (dictInsert acc it.key v) d h k hk2, dictFind?_insert,
            if_neg (fun he => hk1 he.symm)]

theorem parseItems_ok_item (jsonConfig : Dict) :
    ∀ (items : List ConfigItem) (acc d : Dict),
      (items.map ConfigItem.key).Nodup →
      parseItems jsonConfig acc items = .ok d →
      ∀ item ∈ items, ∃ v, ConfigItem.parse item jsonConfig = .ok v ∧
        dictFind? d item.key = some v := by
  intro items
  induction items with
  | nil => intro acc d _ _ item hmem; simp at hmem
  | cons it rest ih =>
      intro acc d hnd h item hmem
      rw [parseItems_cons] at h
      cases hp : ConfigItem.parse it jsonConfig with
      | error e => rw [hp] at h; cases h
      | ok v =>
          rw [hp] at h
          simp only [List.map_cons, List.nodup_cons] at hnd
          obtain ⟨hnk, hnd'⟩ := hnd
          rcases List.mem_cons.mp hmem with heq | hmem'
          · subst heq
            refine ⟨v, hp, ?_⟩
            rw [parseItems_find?_frozen jsonConfig rest _ d h item.key hnk,
              dictFind?_insert, if_pos rfl]
          · exact ih (dictInsert acc it.key v) d hnd' h item hmem'

theorem parseItems_error_of_mem (jsonConfig : Dict) :
    ∀ (items : List ConfigItem) (acc : Dict) (item : ConfigItem) (e : ConfigError),
      item ∈ items → ConfigItem.parse item jsonConfig = .error e →
      ∃ e', parseItems jsonConfig acc items = .error e' := by
  intro items
  induction items with
  | nil => intro acc item e hmem _; simp at hmem
  | cons it rest ih =>
      intro acc item e hmem he
      rw [parseItems_cons]
      cases hp : ConfigItem.parse it jsonConfig with
      | error e0 => exact ⟨e0, rfl⟩
      | ok v =>
          rcases List.mem_cons.mp hmem with heq | hmem'
          · subst heq; rw [hp] at he; cases he
          · exact ih (dictInsert acc it.key v) item e hmem' he

theorem parseItems_first_error (jsonConfig : Dict) (item : ConfigItem)
    (e : ConfigError) (he : ConfigItem.parse item jsonConfig = .error e) :
    ∀ (pre : List ConfigItem) (acc : Dict) (post : List ConfigItem),
      (∀ it ∈ pre, ∃ v, ConfigItem.parse it jsonConfig = .ok v) →
      parseItems jsonConfig acc (pre ++ item :: post) = .error e := by
  intro pre
  induction pre with
  | nil =>
      intro acc post _
      rw [List.nil_append, parseItems_cons, he]
  | cons it rest ih =>
      intro acc post hpre
      rw [List.cons_append, parseItems_cons]
      obtain ⟨v, hv⟩ := hpre it (List.mem_cons_self it rest)
      rw [hv]
      exact ih (dictInsert acc it.key v) post
        (fun it' hmem => hpre it' (List.mem_cons_of_mem _ hmem))

end ConfigParser

namespace ConfigParser

theorem parseItems_empty_input :
    ∀ (items : List ConfigItem) (acc : Dict),
      parseItems [] acc items = getDefaultItems acc items := by
  intro items
  induction items with
  | nil => intro acc; rfl
  | cons it rest ih =>
      intro acc
      rw [parseItems_cons, getDefaultItems_cons]
      have hp : ConfigItem.parse it [] = ConfigItem.getDefault it := rfl
      rw [hp]
      cases ConfigItem.getDefault it with
      | error e => rfl
      | ok v => exact ih (dictInsert acc it.key v)

theorem config_parse_empty (c : Config) : c.parse [] = c.getDefault :=
  parseItems_empty_input c.configItems []

theorem parseItems_defaults :
    ∀ (items : List ConfigItem) (acc d : Dict),
      (∀ item ∈ items, ∀ v, ConfigItem.getDefault item = .ok v →
        ConfigItem.parseValue item v = .ok v) →
      (items.map ConfigItem.key).Nodup →
      getDefaultItems acc items = .ok d →
      parseItems d acc items = .ok d := by
  intro items
  induction items with
  | nil =>
      intro acc d _ _ h
      rw [getDefaultItems_nil] at h
      cases h
      rfl
  | cons it rest ih =>
      intro acc d h2 hnd hdef
      rw [getDefaultItems_cons] at hdef
      cases hg : ConfigItem.getDefault it with
      | error e => rw [hg] at hdef; cases hdef
      | ok v =>
          rw [hg] at hdef
          simp only [List.map_cons, List.nodup_cons] at hnd
          obtain ⟨hnk, hnd'⟩ := hnd
          have hkey : dictFind? d it.key = some v := by
            rw [getDefaultItems_find?_frozen rest _ d hdef it.key hnk,
              dictFind?_insert, if_pos rfl]
          rw [parseItems_cons]
          have hparse : ConfigItem.parse it d = .ok v := by
            unfold ConfigItem.parse
            rw [hkey]
            exact h2 it (List.mem_cons_self it rest) v hg
          rw [hparse]
          exact ih (dictInsert acc it.key v) d
            (fun item hm v' hv => h2 item (List.mem_cons_of_mem _ hm) v' hv)
            hnd' hdef

theorem parseItems_containsKey (jsonConfig : Dict) :
    ∀ (items : List ConfigItem) (acc d : Dict),
      parseItems jsonConfig acc items = .ok d →
      ∀ k, containsKey d k = true ↔
        (containsKey acc k = true ∨ k ∈ items.map ConfigItem.key) := by
  intro items
  induction items with
  | nil =>
      intro acc d h k
      rw [parseItems_nil] at h
      cases h
      simp
  | cons it rest ih =>
      intro acc d h k
      rw [parseItems_cons] at h
      cases hp : ConfigItem.parse it jsonConfig with
      | error e => rw [hp] at h; cases h
      | ok v =>
          rw [hp] at h
          rw [ih (dictInsert acc it.key v) d h k, containsKey_insert]
          simp only [List.map_cons, List.mem_cons]
          constructor
          · rintro (⟨heq | hacc⟩ | hmem)
            · exact Or.inr (Or.inl heq.symm)
            · exact Or.inl hacc
            · exact Or.inr (Or.inr hmem)
          · rintro (hacc | heq | hmem)
            · exact Or.inl (Or.inr hacc)
            · exact Or.inl (Or.inl heq.symm)
            · exact Or.inr hmem

theorem parseItems_ignore_undeclared (k : String) (v : JValue) (jsonConfig : Dict) :
    ∀ (items : List ConfigItem) (acc : Dict),
      k ∉ items.map ConfigItem.key →
      parseItems ((k, v) :: jsonConfig) acc items = parseItems jsonConfig acc items := by
  intro items
  induction items with
  | nil => intro acc _; rfl
  | cons it rest ih =>
      intro acc hk
      simp only [List.map_cons, List.mem_cons, not_or] at hk
      obtain ⟨hk1, hk2⟩ := hk
      have hlook : dictFind? ((k, v) :: jsonConfig) it.key = dictFind? jsonConfig it.key := by
        rw [show dictFind? ((k, v) :: jsonConfig) it.key =
          if k = it.key then some v else dictFind? jsonConfig it.key from rfl, if_neg hk1]
      have hp : ConfigItem.parse it ((k, v) :: jsonConfig) = ConfigItem.parse it jsonConfig := by
        unfold ConfigItem.parse
        rw [hlook]
      rw [parseItems_cons, parseItems_cons, hp]
      cases ConfigItem.parse it jsonConfig with
      | error e => rfl
      | ok w => exact ih (dictInsert acc it.key w) hk2

theorem isinstance_jnull (t : JType) :
    isinstance .jnull t = (t == JType.noneType) := by
  cases t <;> rfl

theorem any_isinstance_jnull (types : List JType) :
    types.any (isinstance .jnull) = true ↔ JType.noneType ∈ types := by
  simp [List.any_eq_true, isinstance_jnull]

end ConfigParser

namespace ConfigParser

theorem decodeRaw_rarr (elems : List RawJson) :
    decodeRaw (.rarr elems) = (decodeElems elems).map .jarr := rfl

theorem decodeRaw_robj (fields : List (String × RawJson)) :
    decodeRaw (.robj fields) =
      match decodeFields fields with
      | .error e => .error e
      | .ok pairs => (errorOnDuplicateKeys pairs).map .jobj := rfl

theorem decodeElems_cons (x : RawJson) (rest : List RawJson) :
    decodeElems (x :: rest) =
      match decodeRaw x with
      | .error e => .error e
      | .ok v => (decodeElems rest).map (v :: ·) := rfl

theorem decodeFields_cons (k : String) (x : RawJson) (rest : List (String × RawJson)) :
    decodeFields ((k, x) :: rest) =
      match decodeRaw x with
      | .error e => .error e
      | .ok v => (decodeFields rest).map ((k, v) :: ·) := rfl

theorem hasDup_robj (fields : List (String × RawJson)) :
    RawJson.hasDup (.robj fields) =
      (hasDupKey (fields.map Prod.fst) || hasDupFields fields) := rfl

theorem hasDup_rarr (elems : List RawJson) :
    RawJson.hasDup (.rarr elems) = hasDupElems elems := rfl

theorem hasDupElems_cons (x : RawJson) (rest : List RawJson) :
    hasDupElems (x :: rest) = (x.hasDup || hasDupElems rest) := rfl

theorem hasDupFields_cons (k : String) (x : RawJson) (rest : List (String × RawJson)) :
    hasDupFields ((k, x) :: rest) = (x.hasDup || hasDupFields rest) := rfl

theorem decodeFields_keys :
    ∀ (l : List (String × RawJson)) (pairs : List (String × JValue)),
      decodeFields l = .ok pairs → pairs.map Prod.fst = l.map Prod.fst := by
  intro l
  induction l with
  | nil =>
      intro pairs h
      rw [show decodeFields [] = .ok ([] : List (String × JValue)) from rfl] at h
      cases h
      rfl
  | cons p rest ih =>
      obtain ⟨k, x⟩ := p
      intro pairs h
      rw [decodeFields_cons] at h
      cases hx : decodeRaw x with
      | error e => rw [hx] at h; cases h
      | ok v =>
          rw [hx] at h
          cases hr : decodeFields rest with
          | error e => rw [hr] at h; cases h
          | ok ps =>
              rw [hr] at h
              cases h
              simp [ih ps hr]

theorem errorOnDuplicateKeysGo_ok :
    ∀ (pairs : List (String × JValue)) (d : Dict),
      hasDupKey (pairs.map Prod.fst) = false →
      (∀ k ∈ pairs.map Prod.fst, containsKey d k = false) →
      ∃ d', errorOnDuplicateKeysGo d pairs = .ok d' := by
  intro pairs
  induction pairs with
  | nil => intro d _ _; exact ⟨d, rfl⟩
  | cons p rest ih =>
      obtain ⟨k, v⟩ := p
      intro d hdup hfresh
      simp only [List.map_cons] at hdup hfresh
      rw [show hasDupKey (k :: rest.map Prod.fst) =
        ((rest.map Prod.fst).contains k || hasDupKey (rest.map Prod.fst)) from rfl,
        Bool.or_eq_false_iff] at hdup
      obtain ⟨hnk, hdup'⟩ := hdup
      have hck : containsKey d k = false := hfresh k (List.mem_cons_self k _)
      have hgo : errorOnDuplicateKeysGo d ((k, v) :: rest) =
          errorOnDuplicateKeysGo (dictInsert d k v) rest := by
        simp [errorOnDuplicateKeysGo, hck]
      rw [hgo]
      apply ih (dictInsert d k v) hdup'
      intro k' hk'
      have hne : ¬k = k' := by
        intro he
        subst he
        have hmem2 : k ∈ rest.map Prod.fst := hk'
        have hnot : k ∉ rest.map Prod.fst := by simpa using hnk
        exact hnot hmem2
      have hck' : containsKey d k' = false :=
        hfresh k' (List.mem_cons_of_mem _ hk')
      cases hc : containsKey (dictInsert d k v) k' with
      | false => rfl
      | true =>
          rcases (containsKey_insert d k v k').mp hc with he | hcc
          · exact absurd he hne
          · rw [hck'] at hcc; cases hcc

theorem errorOnDuplicateKeysGo_error :
    ∀ (pairs : List (String × JValue)) (d : Dict),
      ((pairs.map Prod.fst).any (containsKey d) = true ∨
        hasDupKey (pairs.map Prod.fst) = true) →
      ∃ k, errorOnDuplicateKeysGo d pairs =
        .error (.validationFailed (duplicateKeyMessage k)) := by
  intro pairs
  induction pairs with
  | nil =>
      intro d h
      rcases h with h | h
      · simp at h
      · rw [List.map_nil] at h
        exact absurd h (by decide)
  | cons p rest ih =>
      obtain ⟨k, v⟩ := p
      intro d h
      by_cases hc : containsKey d k = true
      · exact ⟨k, by simp [errorOnDuplicateKeysGo, hc]⟩
      · have hc' : containsKey d k = false := by
          cases hcc : containsKey d k with
          | false => rfl
          | true => exact absurd hcc hc
        have hgo : errorOnDuplicateKeysGo d ((k, v) :: rest) =
            errorOnDuplicateKeysGo (dictInsert d k v) rest := by
          simp [errorOnDuplicateKeysGo, hc']
        rw [hgo]
        apply ih (dictInsert d k v)
        simp only [List.map_cons, List.any_cons, hc', Bool.false_or] at h
        rw [show hasDupKey (k :: rest.map Prod.fst) =
          ((rest.map Prod.fst).contains k || hasDupKey (rest.map Prod.fst)) from rfl] at h
        rcases h with h | h
        · left
          rw [List.any_eq_true] at h ⊢
          obtain ⟨k', hk', hck'⟩ := h
          exact ⟨k', hk', (containsKey_insert d k v k').mpr (Or.inr hck')⟩
        · rcases Bool.or_eq_true_iff.mp h with h | h
          · left
            rw [List.any_eq_true]
            have hmem : k ∈ rest.map Prod.fst := by
              simpa using h
            exact ⟨k, hmem, (containsKey_insert d k v k).mpr (Or.inl rfl)⟩
          · right; exact h

end ConfigParser

namespace ConfigParser

mutual

theorem decodeRaw_ok_of_noDup : ∀ r : RawJson, r.hasDup = false →
    ∃ v, decodeRaw r = .ok v
  | .rnull, _ => ⟨.jnull, rfl⟩
  | .rbool b, _ => ⟨.jbool b, rfl⟩
  | .rint n, _ => ⟨.jint n, rfl⟩
  | .rfloat q, _ => ⟨.jfloat q, rfl⟩
  | .rstr s, _ => ⟨.jstr s, rfl⟩
  | .rarr elems, h => by
      rw [hasDup_rarr] at h
      obtain ⟨vs, hvs⟩ := decodeElems_ok_of_noDup elems h
      exact ⟨.jarr vs, by rw [decodeRaw_rarr, hvs]; rfl⟩
  | .robj fields, h => by
      rw [hasDup_robj, Bool.or_eq_false_iff] at h
      obtain ⟨hkeys, hfields⟩ := h
      obtain ⟨pairs, hpairs⟩ := decodeFields_ok_of_noDup fields hfields
      have hkeys' : hasDupKey (pairs.map Prod.fst) = false := by
        rw [decodeFields_keys fields pairs hpairs]; exact hkeys
      obtain ⟨d, hd⟩ := errorOnDuplicateKeysGo_ok pairs [] hkeys' (fun k _ => rfl)
      refine ⟨.jobj d, ?_⟩
      rw [decodeRaw_robj, hpairs]
      show (errorOnDuplicateKeys pairs).map JValue.jobj = .ok (.jobj d)
      rw [show errorOnDuplicateKeys pairs = errorOnDuplicateKeysGo [] pairs from rfl, hd]
      rfl

theorem decodeElems_ok_of_noDup : ∀ l : List RawJson, hasDupElems l = false →
    ∃ vs, decodeElems l = .ok vs
  | [], _ => ⟨[], rfl⟩
  | x :: rest, h => by
      rw [hasDupElems_cons, Bool.or_eq_false_iff] at h
      obtain ⟨h1, h2⟩ := h
      obtain ⟨v, hv⟩ := decodeRaw_ok_of_noDup x h1
      obtain ⟨vs, hvs⟩ := decodeElems_ok_of_noDup rest h2
      exact ⟨v :: vs, by rw [decodeElems_cons, hv, hvs]; rfl⟩

theorem decodeFields_ok_of_noDup : ∀ l : List (String × RawJson),
    hasDupFields l = false → ∃ pairs, decodeFields l = .ok pairs
  | [], _ => ⟨[], rfl⟩
  | (k, x) :: rest, h => by
      rw [hasDupFields_cons, Bool.or_eq_false_iff] at h
      obtain ⟨h1, h2⟩ := h
      obtain ⟨v, hv⟩ := decodeRaw_ok_of_noDup x h1
      obtain ⟨pairs, hpairs⟩ := decodeFields_ok_of_noDup rest h2
      exact ⟨(k, v) :: pairs, by rw [decodeFields_cons, hv, hpairs]; rfl⟩

end

mutual

theorem decodeRaw_error_of_hasDup : ∀ r : RawJson, r.hasDup = true →
    ∃ k, decodeRaw r = .error (.validationFailed (duplicateKeyMessage k))
  | .rnull, h => nomatch h
  | .rbool _, h => nomatch h
  | .rint _, h => nomatch h
  | .rfloat _, h => nomatch h
  | .rstr _, h => nomatch h
  | .rarr elems, h => by
      rw [hasDup_rarr] at h
      obtain ⟨k, hk⟩ := decodeElems_error_of_hasDup elems h
      exact ⟨k, by rw [decodeRaw_rarr, hk]; rfl⟩
  | .robj fields, h => by
      rw [hasDup_robj] at h
      cases hfields : hasDupFields fields with
      | true =>
          obtain ⟨k, hk⟩ := decodeFields_error_of_hasDup fields hfields
          exact ⟨k, by rw [decodeRaw_robj, hk]⟩
      | false =>
          have hkeys : hasDupKey (fields.map Prod.fst) = true := by
            rw [hfields, Bool.or_false] at h
            exact h
          obtain ⟨pairs, hpairs⟩ := decodeFields_ok_of_noDup fields hfields
          have hkeys' : hasDupKey (pairs.map Prod.fst) = true := by
            rw [decodeFields_keys fields pairs hpairs]; exact hkeys
          obtain ⟨k, hk⟩ := errorOnDuplicateKeysGo_error pairs [] (Or.inr hkeys')
          refine ⟨k, ?_⟩
          rw [decodeRaw_robj, hpairs]
          show (errorOnDuplicateKeys pairs).map JValue.jobj =
            .error (.validationFailed (duplicateKeyMessage k))
          rw [show errorOnDuplicateKeys pairs = errorOnDuplicateKeysGo [] pairs from rfl, hk]
          rfl

theorem decodeElems_error_of_hasDup : ∀ l : List RawJson, hasDupElems l = true →
    ∃ k, decodeElems l = .error (.validationFailed (duplicateKeyMessage k))
  | [], h => nomatch h
  | x :: rest, h => by
      rw [hasDupElems_cons] at h
      cases hx : RawJson.hasDup x with
      | true =>
          obtain ⟨k, hk⟩ := decodeRaw_error_of_hasDup x hx
          exact ⟨k, by rw [decodeElems_cons, hk]⟩
      | false =>
          have hrest : hasDupElems rest = true := by
            rw [hx, Bool.false_or] at h
            exact h
          obtain ⟨v, hv⟩ := decodeRaw_ok_of_noDup x hx
          obtain ⟨k, hk⟩ := decodeElems_error_of_hasDup rest hrest
          exact ⟨k, by rw [decodeElems_cons, hv, hk]; rfl⟩

theorem decodeFields_error_of_hasDup : ∀ l : List (String × RawJson),
    hasDupFields l = true →
    ∃ k, decodeFields l = .error (.validationFailed (duplicateKeyMessage k))
  | [], h => nomatch h
  | (k0, x) :: rest, h => by
      rw [hasDupFields_cons] at h
      cases hx : RawJson.hasDup x with
      | true =>
          obtain ⟨k, hk⟩ := decodeRaw_error_of_hasDup x hx
          exact ⟨k, by rw [decodeFields_cons, hk]⟩
      | false =>
          have hrest : hasDupFields rest = true := by
            rw [hx, Bool.false_or] at h
            exact h
          obtain ⟨v, hv⟩ := decodeRaw_ok_of_noDup x hx
          obtain ⟨k, hk⟩ := decodeFields_error_of_hasDup rest hrest
          exact ⟨k, by rw [decodeFields_cons, hv, hk]; rfl⟩

end

end ConfigParser

namespace ConfigParser

theorem parseValue_multiType (key : String) (types : List JType)
    (dflt : ItemDefault) (v : JValue) :
    ConfigItem.parseValue (.multiType key types dflt) v =
      if types.any (isinstance v) then .ok v
      else .error (.invalidType key types (typeOf v) true) := rfl

theorem parseValue_typeOrSubconfig_jobj (key : String) (ty : JType)
    (subItems : List ConfigItem) (sval : Option (Dict → Except ConfigError Dict))
    (dflt : SubDefault) (fields : List (String × JValue)) :
    ConfigItem.parseValue (.typeOrSubconfig key ty (.mk subItems sval) dflt) (.jobj fields) =
      if isinstance (.jobj fields) ty then .ok (.jobj fields)
      else (parseItems fields [] subItems).map .jobj := rfl

theorem parseValue_typeOrSubconfig_nonObj (key : String) (ty : JType)
    (subItems : List ConfigItem) (sval : Option (Dict → Except ConfigError Dict))
    (dflt : SubDefault) :
    ∀ v : JValue, (∀ fields, v ≠ .jobj fields) →
      ConfigItem.parseValue (.typeOrSubconfig key ty (.mk subItems sval) dflt) v =
        if isinstance v ty then .ok v
        else .error (.invalidType key [ty] (typeOf v) false) := by
  intro v hne
  cases v with
  | jobj fields => exact absurd rfl (hne fields)
  | jnull => rfl
  | jbool b => rfl
  | jint n => rfl
  | jfloat q => rfl
  | jstr s => rfl
  | jarr elems => rfl

theorem configItem_parse_def (item : ConfigItem) (jsonConfig : Dict) :
    ConfigItem.parse item jsonConfig =
      match dictFind? jsonConfig item.key with
      | some raw => ConfigItem.parseValue item raw
      | none => ConfigItem.getDefault item := rfl

theorem config_parse_def (c : Config) (jsonConfig : Dict) :
    c.parse jsonConfig = parseItems jsonConfig [] c.configItems := rfl

theorem config_getDefault_def (c : Config) :
    c.getDefault = getDefaultItems [] c.configItems := rfl

end ConfigParser

namespace ConfigParser

/-- Claim C1: for every Config (whose declared keys are distinct, as the data
model requires) and every input mapping, a successful `Config.parse` yields a
mapping with an entry for every declared item's key — the type-specific
extraction result when the key is present, the declared default when absent —
and an item with no declared default whose key is absent makes its
`ConfigItem.parse` raise `ExpectedValueError` and the whole `Config.parse`
raise (the first failing item's error is the one propagated). -/
theorem claim_parse_complete (c : Config) (jsonConfig : Dict)
    (hnd : (c.configItems.map ConfigItem.key).Nodup) :
    (∀ d, c.parse jsonConfig = .ok d →
      ∀ item ∈ c.configItems, ∃ v, dictFind? d item.key = some v ∧
        ((∃ raw, dictFind? jsonConfig item.key = some raw ∧
            ConfigItem.parseValue item raw = .ok v) ∨
          (dictFind? jsonConfig item.key = none ∧
            ConfigItem.getDefault item = .ok v))) ∧
    (∀ item ∈ c.configItems, dictFind? jsonConfig item.key = none →
      ConfigItem.hasNoDefault item = true →
      ConfigItem.parse item jsonConfig = .error (.expectedValue item.key) ∧
      ∃ e, c.parse jsonConfig = .error e) ∧
    (∀ (pre : List ConfigItem) (item : ConfigItem) (post : List ConfigItem)
        (e : ConfigError),
      c.configItems = pre ++ item :: post →
      (∀ it ∈ pre, ∃ v, ConfigItem.parse it jsonConfig = .ok v) →
      ConfigItem.parse item jsonConfig = .error e →
      c.parse jsonConfig = .error e) := by
  refine ⟨?_, ?_, ?_⟩
  · intro d h item hmem
    rw [config_parse_def] at h
    obtain ⟨v, hv, hfind⟩ :=
      parseItems_ok_item jsonConfig c.configItems [] d hnd h item hmem
    refine ⟨v, hfind, ?_⟩
    rw [configItem_parse_def] at hv
    cases hlook : dictFind? jsonConfig item.key with
    | some raw => rw [hlook] at hv; exact Or.inl ⟨raw, rfl, hv⟩
    | none => rw [hlook] at hv; exact Or.inr ⟨rfl, hv⟩
  · intro item hmem hnone hnodef
    have hparse : ConfigItem.parse item jsonConfig = .error (.expectedValue item.key) := by
      rw [configItem_parse_def, hnone]
      cases item with
      | multiType k types dflt =>
          cases dflt with
          | noDefault => rfl
          | value v => exact absurd hnodef (by simp [ConfigItem.hasNoDefault])
      | typeOrSubconfig k ty sub dflt =>
          cases dflt with
          | noDefault => rfl
          | useSubDefaults => exact absurd hnodef (by simp [ConfigItem.hasNoDefault])
          | value v => exact absurd hnodef (by simp [ConfigItem.hasNoDefault])
    refine ⟨hparse, ?_⟩
    rw [config_parse_def]
    exact parseItems_error_of_mem jsonConfig c.configItems [] item _ hmem hparse
  · intro pre item post e heq hpre he
    rw [config_parse_def, heq]
    exact parseItems_first_error jsonConfig item e he pre [] post hpre

/-- Witness for C1: a config with one required integer item and an empty
input; the item-level parse raises `ExpectedValueError("a")` and the
config-level parse fails. -/
theorem claim_parse_complete_witness :
    ConfigItem.parse (.multiType "a" [.int] .noDefault) [] =
      .error (.expectedValue "a") ∧
    ∃ e, Config.parse (.mk [.multiType "a" [.int] .noDefault] none) [] = .error e :=
  (claim_parse_complete (.mk [.multiType "a" [.int] .noDefault] none) []
      (by simp [Config.configItems])).2.1
    (.multiType "a" [.int] .noDefault) (by simp [Config.configItems]) rfl rfl

end ConfigParser

namespace ConfigParser

/-- Claim C2: a `TypeOrSubconfigConfigItem` returns a value matching the
scalar type unchanged; a non-matching dict value is recursively parsed
against the nested Config; any other non-matching value raises
`InvalidTypeError`. With scalar type string: `"x"` is returned unchanged,
`{}` yields the nested schema's defaults (`Config.parse` on an empty input
coincides with `Config.getDefault`), and `42` raises `InvalidTypeError`. -/
theorem claim_typeOrSubconfig (key : String) (type_ : JType) (sub : Config)
    (dflt : SubDefault) :
    (∀ v, isinstance v type_ = true →
      ConfigItem.parseValue (.typeOrSubconfig key type_ sub dflt) v = .ok v) ∧
    (∀ fields, isinstance (.jobj fields) type_ = false →
      ConfigItem.parseValue (.typeOrSubconfig key type_ sub dflt) (.jobj fields) =
        (sub.parse fields).map .jobj) ∧
    (∀ v, isinstance v type_ = false → (∀ fields, v ≠ .jobj fields) →
      ConfigItem.parseValue (.typeOrSubconfig key type_ sub dflt) v =
        .error (.invalidType key [type_] (typeOf v) false)) ∧
    (ConfigItem.parseValue (.typeOrSubconfig key .str sub dflt) (.jstr "x") =
      .ok (.jstr "x")) ∧
    (ConfigItem.parseValue (.typeOrSubconfig key .str sub dflt) (.jobj []) =
      (sub.getDefault).map .jobj) ∧
    (ConfigItem.parseValue (.typeOrSubconfig key .str sub dflt) (.jint 42) =
      .error (.invalidType key [.str] .int false)) := by
  obtain ⟨subItems, sval⟩ := sub
  refine ⟨?_, ?_, ?_, ?_, ?_, ?_⟩
  · intro v h
    cases v with
    | jobj fields => rw [parseValue_typeOrSubconfig_jobj, if_pos h]
    | jnull => rw [parseValue_typeOrSubconfig_nonObj _ _ _ _ _ _ (by intro _ h; cases h), if_pos h]
    | jbool b => rw [parseValue_typeOrSubconfig_nonObj _ _ _ _ _ _ (by intro _ h; cases h), if_pos h]
    | jint n => rw [parseValue_typeOrSubconfig_nonObj _ _ _ _ _ _ (by intro _ h; cases h), if_pos h]
    | jfloat q => rw [parseValue_typeOrSubconfig_nonObj _ _ _ _ _ _ (by intro _ h; cases h), if_pos h]
    | jstr s => rw [parseValue_typeOrSubconfig_nonObj _ _ _ _ _ _ (by intro _ h; cases h), if_pos h]
    | jarr elems => rw [parseValue_typeOrSubconfig_nonObj _ _ _ _ _ _ (by intro _ h; cases h), if_pos h]
  · intro fields h
    rw [parseValue_typeOrSubconfig_jobj, if_neg (by rw [h]; exact Bool.false_ne_true),
      config_parse_def]
    rfl
  · intro v h hne
    rw [parseValue_typeOrSubconfig_nonObj _ _ _ _ _ v hne,
      if_neg (by rw [h]; exact Bool.false_ne_true)]
  · rfl
  · rw [parseValue_typeOrSubconfig_jobj, if_neg (by exact Bool.false_ne_true),
      config_getDefault_def]
    rw [show parseItems [] [] subItems = getDefaultItems [] subItems from
      parseItems_empty_input subItems []]
    rfl
  · rfl

/-- Witness for C2: with a one-item nested schema with an integer default,
parsing `{}` produces the nested defaults. -/
theorem claim_typeOrSubconfig_witness :
    ConfigItem.parseValue
      (.typeOrSubconfig "a" .str (.mk [.multiType "b" [.int] (.value (.jint 7))] none)
        .useSubDefaults) (.jobj []) =
      ((Config.mk [.multiType "b" [.int] (.value (.jint 7))] none).getDefault).map .jobj ∧
    ConfigItem.parseValue
      (.typeOrSubconfig "a" .str (.mk [.multiType "b" [.int] (.value (.jint 7))] none)
        .useSubDefaults) (.jstr "x") = .ok (.jstr "x") :=
  ⟨(claim_typeOrSubconfig "a" .str (.mk [.multiType "b" [.int] (.value (.jint 7))] none)
      .useSubDefaults).2.2.2.2.1,
   (claim_typeOrSubconfig "a" .str (.mk [.multiType "b" [.int] (.value (.jint 7))] none)
      .useSubDefaults).1 (.jstr "x") rfl⟩

/-- Claim C6: `MultiTypeConfigItem._parse` returns the raw value unchanged
exactly when `isinstance` matches some accepted type, and otherwise raises
`InvalidTypeError` carrying the key, the accepted type list and the received
type. -/
theorem claim_multiType (key : String) (possibleTypes : List JType)
    (dflt : ItemDefault) (v : JValue) :
    (ConfigItem.parseValue (.multiType key possibleTypes dflt) v = .ok v ↔
      possibleTypes.any (isinstance v) = true) ∧
    (possibleTypes.any (isinstance v) = false →
      ConfigItem.parseValue (.multiType key possibleTypes dflt) v =
        .error (.invalidType key possibleTypes (typeOf v) true)) ∧
    (∀ w, ConfigItem.parseValue (.multiType key possibleTypes dflt) v = .ok w →
      w = v) := by
  refine ⟨⟨?_, ?_⟩, ?_, ?_⟩
  · intro h
    by_contra hany
    rw [parseValue_multiType, if_neg hany] at h
    cases h
  · intro h
    rw [parseValue_multiType, if_pos h]
  · intro h
    rw [parseValue_multiType, if_neg (by rw [h]; exact Bool.false_ne_true)]
  · intro w h
    rw [parseValue_multiType] at h
    by_cases hany : possibleTypes.any (isinstance v) = true
    · rw [if_pos hany] at h; cases h; rfl
    · rw [if_neg hany] at h; cases h

/-- Witness for C6: an accepted int is returned unchanged; a string against
an int-only item raises the listed invalid-type error. -/
theorem claim_multiType_witness :
    ConfigItem.parseValue (.multiType "a" [.int] .noDefault) (.jint 3) =
      .ok (.jint 3) ∧
    ConfigItem.parseValue (.multiType "a" [.int] .noDefault) (.jstr "s") =
      .error (.invalidType "a" [.int] .str true) :=
  ⟨(claim_multiType "a" [.int] .noDefault (.jint 3)).1.mpr rfl,
   (claim_multiType "a" [.int] .noDefault (.jstr "s")).2.1 rfl⟩

/-- Claim C7: `parseConfig` is `validate` after `parse`: with no validator,
`validate` is the identity and `parseConfig` coincides with `parse`; with a
validator, a successful parse hands its mapping to the validator and returns
the validator's result; an error from `parse` propagates unchanged. -/
theorem claim_parseConfig (c : Config) (jsonConfig : Dict) :
    (parseConfig c jsonConfig =
      match c.parse jsonConfig with
      | .error e => .error e
      | .ok config => c.validate config) ∧
    (c.validator = none →
      (∀ config, c.validate config = .ok config) ∧
      parseConfig c jsonConfig = c.parse jsonConfig) ∧
    (∀ f, c.validator = some f →
      ∀ config, c.parse jsonConfig = .ok config →
        parseConfig c jsonConfig = f config) ∧
    (∀ e, c.parse jsonConfig = .error e →
      parseConfig c jsonConfig = .error e) := by
  refine ⟨rfl, ?_, ?_, ?_⟩
  · intro hval
    have hid : ∀ config, c.validate config = .ok config := by
      intro config
      rw [show c.validate config =
        (match c.validator with
         | some f => f config
         | none => .ok config) from rfl, hval]
    refine ⟨hid, ?_⟩
    rw [show parseConfig c jsonConfig =
      (match c.parse jsonConfig with
       | .error e => .error e
       | .ok config => c.validate config) from rfl]
    cases c.parse jsonConfig with
    | error e => rfl
    | ok config =>
        show c.validate config = .ok config
        exact hid config
  · intro f hval config hok
    rw [show parseConfig c jsonConfig =
      (match c.parse jsonConfig with
       | .error e => .error e
       | .ok config => c.validate config) from rfl, hok]
    show c.validate config = f config
    rw [show c.validate config =
      (match c.validator with
       | some f => f config
       | none => .ok config) from rfl, hval]
  · intro e he
    rw [show parseConfig c jsonConfig =
      (match c.parse jsonConfig with
       | .error e => .error e
       | .ok config => c.validate config) from rfl, he]

/-- Witness for C7: a validator that rejects everything is invoked on the
parsed mapping, and without a validator `parseConfig` equals `parse`. -/
theorem claim_parseConfig_witness :
    parseConfig (.mk [] (some (fun _ => .error (.validationFailed "no")))) [] =
      .error (.validationFailed "no") ∧
    parseConfig (.mk [.multiType "a" [.int] (.value (.jint 1))] none) [] =
      Config.parse (.mk [.multiType "a" [.int] (.value (.jint 1))] none) [] :=
  ⟨(claim_parseConfig (.mk [] (some (fun _ => .error (.validationFailed "no")))) []).2.2.1
      (fun _ => .error (.validationFailed "no")) rfl [] rfl,
   ((claim_parseConfig (.mk [.multiType "a" [.int] (.value (.jint 1))] none) []).2.1 rfl).2⟩

end ConfigParser

namespace ConfigParser

/-- Claim C9: a successful `Config.parse` yields a mapping whose keys are
exactly the declared item keys, and prepending a binding for an undeclared
key to the input leaves the result unchanged (unknown keys are silently
ignored and never raise). -/
theorem claim_unknownKeys (c : Config) (jsonConfig : Dict) :
    (∀ d, c.parse jsonConfig = .ok d →
      ∀ k, containsKey d k = true ↔ k ∈ c.configItems.map ConfigItem.key) ∧
    (∀ k v, k ∉ c.configItems.map ConfigItem.key →
      c.parse ((k, v) :: jsonConfig) = c.parse jsonConfig) := by
  constructor
  · intro d h k
    rw [config_parse_def] at h
    rw [parseItems_containsKey jsonConfig c.configItems [] d h k]
    simp [containsKey, dictFind?]
  · intro k v hk
    rw [config_parse_def, config_parse_def]
    exact parseItems_ignore_undeclared k v jsonConfig c.configItems [] hk

/-- Witness for C9: an undeclared key `"zzz"` in the input does not change
the parse result, and the declared key `"a"` is present in the output. -/
theorem claim_unknownKeys_witness :
    Config.parse (.mk [.multiType "a" [.int] (.value (.jint 1))] none)
        [("zzz", .jstr "u")] =
      Config.parse (.mk [.multiType "a" [.int] (.value (.jint 1))] none) [] ∧
    containsKey [("a", JValue.jint 1)] "a" = true :=
  ⟨(claim_unknownKeys (.mk [.multiType "a" [.int] (.value (.jint 1))] none) []).2
      "zzz" (.jstr "u") (by simp [Config.configItems, ConfigItem.key]),
   ((claim_unknownKeys (.mk [.multiType "a" [.int] (.value (.jint 1))] none) []).1
      [("a", .jint 1)] rfl "a").mpr (by simp [Config.configItems, ConfigItem.key])⟩

/-- Claim C10: a declared key bound to `None` (JSON null) counts as present:
`ConfigItem.parse` hands the null to the type-specific extraction instead of
falling back to the default, so a `MultiTypeConfigItem` accepts it only when
`NoneType` is among the accepted types and otherwise raises
`InvalidTypeError` — whatever the declared default is. -/
theorem claim_nullValue (jsonConfig : Dict) :
    (∀ item : ConfigItem, dictFind? jsonConfig item.key = some .jnull →
      ConfigItem.parse item jsonConfig = ConfigItem.parseValue item .jnull) ∧
    (∀ (key : String) (types : List JType) (dflt : ItemDefault),
      dictFind? jsonConfig key = some .jnull →
      ConfigItem.parse (.multiType key types dflt) jsonConfig =
        if JType.noneType ∈ types then .ok .jnull
        else .error (.invalidType key types .noneType true)) := by
  constructor
  · intro item h
    rw [configItem_parse_def, h]
  · intro key types dflt h
    have hkey : ConfigItem.key (.multiType key types dflt) = key := rfl
    rw [configItem_parse_def, hkey, h]
    show ConfigItem.parseValue (.multiType key types dflt) .jnull =
      if JType.noneType ∈ types then .ok .jnull
      else .error (.invalidType key types .noneType true)
    rw [parseValue_multiType]
    by_cases hmem : JType.noneType ∈ types
    · rw [if_pos ((any_isinstance_jnull types).mpr hmem), if_pos hmem]
    · rw [if_neg (fun hany => hmem ((any_isinstance_jnull types).mp hany)),
        if_neg hmem]
      rfl

/-- Witness for C10: `{"a": null}` against an int item with default `5`
raises `InvalidTypeError` rather than producing the default. -/
theorem claim_nullValue_witness :
    ConfigItem.parse (.multiType "a" [.int] (.value (.jint 5))) [("a", .jnull)] =
      .error (.invalidType "a" [.int] .noneType true) := by
  rw [(claim_nullValue [("a", .jnull)]).2 "a" [.int] (.value (.jint 5)) rfl]
  rfl

end ConfigParser

namespace ConfigParser

theorem decodeRootPairs_vs_decodeRaw (rootPairs : List (String × RawJson)) :
    decodeRaw (.robj rootPairs) = (decodeRootPairs rootPairs).map .jobj := by
  rw [decodeRaw_robj]
  unfold decodeRootPairs
  cases decodeFields rootPairs with
  | error e => rfl
  | ok pairs => rfl

/-- Claim C3 counterexample: a config file whose root object repeats the key
`"a"` raises `ValidationFailedError`; the message is the same whatever file
is being parsed and does not contain the file path, refuting the part of the
claim that says the message names the file or source being parsed. -/
theorem claim_duplicateKey_counterexample :
    parseConfigFile (.mk [] none) "myconfig.json"
        [("a", .rint 1), ("a", .rint 2)] =
      .error (.validationFailed (duplicateKeyMessage "a")) ∧
    parseConfigFile (.mk [] none) "elsewhere.json"
        [("a", .rint 1), ("a", .rint 2)] =
      .error (.validationFailed (duplicateKeyMessage "a")) ∧
    strContains (duplicateKeyMessage "a") "myconfig.json" = false :=
  ⟨rfl, rfl, rfl⟩

/-- Claim C3 amended: a JSON object that repeats a key at any nesting level
makes `parseConfigFile` fail immediately with a `ValidationFailedError`
whose message names the duplicated key (though not the file being parsed). -/
theorem claim_duplicateKey_amended (configSpec : Config) (configFilePath : String)
    (rootPairs : List (String × RawJson))
    (h : RawJson.hasDup (.robj rootPairs) = true) :
    ∃ k, parseConfigFile configSpec configFilePath rootPairs =
      .error (.validationFailed (duplicateKeyMessage k)) := by
  obtain ⟨k, hk⟩ := decodeRaw_error_of_hasDup (.robj rootPairs) h
  rw [decodeRootPairs_vs_decodeRaw] at hk
  refine ⟨k, ?_⟩
  unfold parseConfigFile
  cases hdec : decodeRootPairs rootPairs with
  | error e =>
      rw [hdec] at hk
      cases hk
      rfl
  | ok d => rw [hdec] at hk; cases hk

/-- Witness for the amended C3: a duplicate key nested one object deep is
still detected. -/
theorem claim_duplicateKey_amended_witness :
    RawJson.hasDup (.robj [("outer", .robj [("a", .rint 1), ("a", .rint 2)])]) = true ∧
    ∃ k, parseConfigFile (.mk [] none) "config.json"
        [("outer", .robj [("a", .rint 1), ("a", .rint 2)])] =
      .error (.validationFailed (duplicateKeyMessage k)) :=
  ⟨rfl, claim_duplicateKey_amended (.mk [] none) "config.json"
    [("outer", .robj [("a", .rint 1), ("a", .rint 2)])] rfl⟩

/-- Claim C4 counterexample: when JSON decoding raises (here on a duplicated
key), `parseConfigFile` exits with the error while `configFile.close()` was
never reached — the source has no `with` block or `try`/`finally`, so this
exit path leaks the handle, refuting closure on every exit path. -/
theorem claim_fileClosed_counterexample :
    parseConfigFileTracked (.mk [] none) "config.json"
        [("a", .rint 1), ("a", .rint 2)] =
      (.error (.validationFailed (duplicateKeyMessage "a")), false) := rfl

/-- Claim C4 amended: the file handle is closed exactly when JSON decoding
succeeds — in particular it is closed on the success path and on errors
raised by schema parsing or validation (which occur after `close()`), but
not when decoding itself raises. -/
theorem claim_fileClosed_amended (configSpec : Config) (configFilePath : String)
    (rootPairs : List (String × RawJson)) :
    ((parseConfigFileTracked configSpec configFilePath rootPairs).2 = true ↔
      ∃ d, decodeRootPairs rootPairs = .ok d) ∧
    (∀ d, decodeRootPairs rootPairs = .ok d →
      parseConfigFileTracked configSpec configFilePath rootPairs =
        (parseConfig configSpec d, true)) ∧
    (∀ e, decodeRootPairs rootPairs = .error e →
      parseConfigFileTracked configSpec configFilePath rootPairs =
        (.error e, false)) := by
  refine ⟨?_, ?_, ?_⟩
  · cases hdec : decodeRootPairs rootPairs with
    | error e => simp [parseConfigFileTracked, hdec]
    | ok d => simp [parseConfigFileTracked, hdec]
  · intro d hd
    simp [parseConfigFileTracked, hd]
  · intro e he
    simp [parseConfigFileTracked, he]

/-- Witness for the amended C4: a well-formed file decodes, the handle is
closed, and the (empty-schema) parse result is returned. -/
theorem claim_fileClosed_amended_witness :
    parseConfigFileTracked (.mk [] none) "config.json" [("a", .rint 1)] =
      (parseConfig (.mk [] none) [("a", .jint 1)], true) :=
  (claim_fileClosed_amended (.mk [] none) "config.json" [("a", .rint 1)]).2.1
    [("a", .jint 1)] rfl

/-- Claim C5 counterexample: a config whose single int-typed item declares
the ill-typed default `"x"`: `getDefault` succeeds with the mapping
`{"a": "x"}`, but parsing that mapping through the same config raises
`InvalidTypeError`, so parse is not idempotent on the all-defaults
configuration. -/
theorem claim_idempotence_counterexample :
    Config.getDefault (.mk [.multiType "a" [.int] (.value (.jstr "x"))] none) =
      .ok [("a", .jstr "x")] ∧
    Config.parse (.mk [.multiType "a" [.int] (.value (.jstr "x"))] none)
        [("a", .jstr "x")] =
      .error (.invalidType "a" [.int] .str true) :=
  ⟨rfl, rfl⟩

/-- Claim C5 amended: with distinct declared keys (the data-model invariant)
and under the additional premise — not checked by the library — that every
item's resolved default passes that item's own type-specific extraction
unchanged, parsing the output of `getDefault()` returns it verbatim. -/
theorem claim_idempotence_amended (c : Config) (d : Dict)
    (hnd : (c.configItems.map ConfigItem.key).Nodup)
    (h2 : ∀ item ∈ c.configItems, ∀ v, ConfigItem.getDefault item = .ok v →
      ConfigItem.parseValue item v = .ok v)
    (hdef : c.getDefault = .ok d) :
    c.parse d = .ok d := by
  rw [config_parse_def]
  rw [config_getDefault_def] at hdef
  exact parseItems_defaults c.configItems [] d h2 hnd hdef

/-- Witness for the amended C5: a well-typed default survives a re-parse. -/
theorem claim_idempotence_amended_witness :
    Config.parse (.mk [.multiType "a" [.int] (.value (.jint 3))] none)
        [("a", .jint 3)] = .ok [("a", .jint 3)] :=
  claim_idempotence_amended (.mk [.multiType "a" [.int] (.value (.jint 3))] none)
    [("a", .jint 3)] (by simp [Config.configItems, ConfigItem.key])
    (by intro item hm v hv
        simp [Config.configItems] at hm
        subst hm
        rw [show ConfigItem.getDefault (.multiType "a" [.int] (.value (.jint 3))) =
          .ok (.jint 3) from rfl] at hv
        cases hv
        rfl)
    rfl

end ConfigParser

namespace NetStats

/-- Claim C8: the statistics script picks one top node per network by a
two-key descending sort in which a missing (`None`) BiBC sorts strictly
lower than any present value and is rendered as the literal token `"N/A"`:
with default priority, the network with nodes `A` (degree 3, BiBC 0.5) and
`B` (degree 5, BiBC `None`) selects `A` and emits the row `0,A,3,0.5`; with
`--flip-priority`, the network with `A` (degree 2, BiBC 0.9) and `B`
(degree 5, BiBC `None`) selects `B` with BiBC column `N/A`. -/
theorem claim_topNode :
    (∀ q : ℚ, StatValue.lt .noBibc (.num q) = true ∧
      StatValue.lt (.num q) .noBibc = false) ∧
    renderBibc .noBibc = .strCell "N/A" ∧
    synthesizedRows false [[("A", ⟨3, some (1/2)⟩), ("B", ⟨5, none⟩)]] =
      some [[.natCell 0, .strCell "A", .intCell 3, .ratCell (1/2)]] ∧
    synthesizedRows true [[("A", ⟨2, some (9/10)⟩), ("B", ⟨5, none⟩)]] =
      some [[.natCell 0, .strCell "B", .intCell 5, .strCell "N/A"]] := by
  exact ⟨fun q => ⟨rfl, rfl⟩, rfl, rfl, rfl⟩

end NetStats
